import Mathlib

/-!
Verification of the WASAText messaging service: a shallow embedding of the
status-resolver, read-marker, reaction, conversation and WebSocket-hub code
(Go source in `service/api/handlers.go` and the `database` package), together
with proofs about the embedded definitions.

The SQL tables are embedded as Lean lists of rows; each Go/SQL operation
becomes a pure function on a `DB` record.  The WebSocket hub becomes a pure
state record with an explicit list of closed connection ids.
-/

namespace Wasa

/-- Message status constants (`database.go`). -/
def StatusSent : String := "sent"

/-- Message status constant "received" (`database.go`). -/
def StatusReceived : String := "received"

/-- Message status constant "read" (`database.go`). -/
def StatusRead : String := "read"

/-- A row of the `messages` table (`database.go`, struct `Message`). -/
structure MessageRow where
  id : String
  conversationId : String
  senderId : String
  createdAt : String
  contentType : String
  text : Option String
  photoUrl : Option String
  fileUrl : Option String
  fileName : Option String
  repliedTo : Option String
  status : String
  isForwarded : Bool
deriving DecidableEq

/-- A row of the `message_reads` table (`database.go`, `createMessageReadsTable`);
primary key is (message_id, user_id). -/
structure ReadRow where
  messageId : String
  userId : String
  readAt : String
deriving DecidableEq

/-- A row of the `reactions` table (`database.go`, `createReactionsTable`);
UNIQUE(message_id, user_id). -/
structure ReactionRow where
  id : String
  messageId : String
  userId : String
  emoji : String
  createdAt : String
deriving DecidableEq

/-- A row of the `conversations` table (id, type, name). -/
structure ConvRow where
  id : String
  type : String
  name : String
deriving DecidableEq

/-- The relational store: one list of rows per table.  `participants` holds
(conversation_id, user_id) pairs (`conversation_participants` table). -/
structure DB where
  conversations : List ConvRow
  participants : List (String × String)
  messages : List MessageRow
  messageReads : List ReadRow
  reactions : List ReactionRow
deriving DecidableEq

/-- The empty store. -/
def dbEmpty : DB := ⟨[], [], [], [], []⟩

/-- Go `IsParticipant` (`conversation.go`): COUNT of matching participant rows is
positive. -/
def isParticipant (db : DB) (cid uid : String) : Bool :=
  decide (0 < db.participants.countP (fun p => p.1 == cid && p.2 == uid))

/-- Go `AddParticipant` (`conversation.go`): INSERT OR IGNORE into
`conversation_participants`. -/
def addParticipant (db : DB) (cid uid : String) : DB :=
  if db.participants.any (fun p => p.1 == cid && p.2 == uid) then db
  else { db with participants := db.participants ++ [(cid, uid)] }

/-- Go `RemoveParticipant` (`conversation.go`): DELETE the matching row. -/
def removeParticipant (db : DB) (cid uid : String) : DB :=
  { db with participants :=
      db.participants.filter (fun p => !(p.1 == cid && p.2 == uid)) }

/-- Go `CreateConversation` (`conversation.go`): INSERT a conversation row. -/
def createConversation (db : DB) (cid ctype name : String) : DB :=
  { db with conversations := db.conversations ++ [⟨cid, ctype, name⟩] }

/-- Go `CreateMessage` (`message.go`): INSERT a message row. -/
def createMessage (db : DB) (m : MessageRow) : DB :=
  { db with messages := db.messages ++ [m] }

/-- Go `MarkMessageReadByUser` (`message.go`): INSERT OR REPLACE INTO
`message_reads` with read_at = the current time `t`; the REPLACE removes any
row with the same (message_id, user_id) key. -/
def markMessageReadByUser (db : DB) (mid uid t : String) : DB :=
  { db with messageReads :=
      db.messageReads.filter (fun r => !(r.messageId == mid && r.userId == uid))
        ++ [⟨mid, uid, t⟩] }

/-- The row filter of `MarkMessagesAsRead` (`message.go`): messages of the
conversation not sent by the user whose stored status is sent or received. -/
def readTarget (cid uid : String) (m : MessageRow) : Bool :=
  m.conversationId == cid && m.senderId != uid &&
    (m.status == StatusSent || m.status == StatusReceived)

/-- Go `MarkMessagesAsRead` (`message.go`): SELECT the target message ids, then
call `MarkMessageReadByUser` on each of them. -/
def markMessagesAsRead (db : DB) (cid uid t : String) : DB :=
  (db.messages.filter (readTarget cid uid)).foldl
    (fun d m => markMessageReadByUser d m.id uid t) db

/-- The IN-subquery of `MarkMessagesAsReceived`: conversation ids in which
the user participates. -/
def inUserConversations (db : DB) (uid cid : String) : Bool :=
  db.participants.any (fun p => p.2 == uid && p.1 == cid)

/-- The WHERE clause of `MarkMessagesAsReceived` (`message.go`). -/
def receiveCond (db : DB) (uid : String) (m : MessageRow) : Bool :=
  m.status == StatusSent && m.senderId != uid &&
    inUserConversations db uid m.conversationId

/-- Go `MarkMessagesAsReceived` (`message.go`): UPDATE messages SET status =
received WHERE status = sent AND sender_id != uid AND conversation_id IN the
conversations of the user. -/
def markMessagesAsReceived (db : DB) (uid : String) : DB :=
  { db with messages := db.messages.map (fun m =>
      if receiveCond db uid m then { m with status := StatusReceived } else m) }

/-- SELECT ... FROM messages WHERE id = ? (first matching row). -/
def findMessage (db : DB) (mid : String) : Option MessageRow :=
  db.messages.find? (fun m => m.id == mid)

/-- Participant count used by `GetMessageStatus`: participants of the
conversation excluding the sender. -/
def totalParticipants (db : DB) (cid sid : String) : Nat :=
  db.participants.countP (fun p => p.1 == cid && p.2 != sid)

/-- Read count used by `GetMessageStatus`: COUNT(*) of `message_reads` rows
for the message (note: NOT restricted to current participants). -/
def readCount (db : DB) (mid : String) : Nat :=
  db.messageReads.countP (fun r => r.messageId == mid)

/-- Go `GetMessageStatus` (`message.go`): `none` models the Go error return when
the message row is absent; otherwise the switch on the two counts. -/
def getMessageStatus (db : DB) (mid : String) : Option String :=
  match findMessage db mid with
  | none => none
  | some m =>
      let total := totalParticipants db m.conversationId m.senderId
      if total == 0 then some StatusSent
      else
        let rc := readCount db mid
        if rc == 0 then some StatusSent
        else if total ≤ rc then some StatusRead
        else some StatusReceived

/-- Modelled from the spec (section 4.1) for comparison with
`getMessageStatus`: P = participants of the conversation excluding the
sender, R = users in P holding a Read Marker for the message; sent when R is
empty, read when |R| >= |P|, received otherwise. -/
def resolveStatusSpec (db : DB) (mid : String) : Option String :=
  match findMessage db mid with
  | none => none
  | some m =>
      let pCount := totalParticipants db m.conversationId m.senderId
      if pCount == 0 then some StatusSent
      else
        let rCount := db.participants.countP (fun p =>
          p.1 == m.conversationId && p.2 != m.senderId &&
            db.messageReads.any (fun r => r.messageId == mid && r.userId == p.2))
        if rCount == 0 then some StatusSent
        else if pCount ≤ rCount then some StatusRead
        else some StatusReceived

/-! ### Concrete scenario for C1: a reader who leaves the group -/

/-- The message of the C1 scenario: sent by alice in group g1. -/
def c1Msg : MessageRow :=
  { id := "m1", conversationId := "g1", senderId := "alice", createdAt := "t0",
    contentType := "text", text := some "hi", photoUrl := none, fileUrl := none,
    fileName := none, repliedTo := none, status := StatusSent, isForwarded := false }

/-- Group g1 with members alice, bob, carol and one message by alice. -/
def c1Db0 : DB :=
  createMessage
    (addParticipant
      (addParticipant
        (addParticipant (createConversation dbEmpty "g1" "group" "G")
          "g1" "alice")
        "g1" "bob")
      "g1" "carol")
    c1Msg

/-- bob opens the conversation (read-on-open path of `getConversation`), then
leaves the group (`leaveGroup` path, `RemoveParticipant`). -/
def c1Db : DB :=
  removeParticipant (markMessagesAsRead c1Db0 "g1" "bob" "t1") "g1" "bob"

/-- C1: the code does NOT follow the status algorithm of the spec.
`GetMessageStatus` counts every `message_reads` row of the message, while the
algorithm counts only markers held by current non-sender participants.  In the
reachable state `c1Db` (bob reads the group message, then leaves the group;
both request gates hold, as recorded by the first two conjuncts) the code
returns `read` although the sole remaining other participant, carol, holds no
Read Marker, where the algorithm yields `sent`. -/
theorem c1_status_algorithm_divergence :
    isParticipant c1Db0 "g1" "bob" = true ∧
    isParticipant (markMessagesAsRead c1Db0 "g1" "bob" "t1") "g1" "bob" = true ∧
    getMessageStatus c1Db "m1" = some StatusRead ∧
    resolveStatusSpec c1Db "m1" = some StatusSent ∧
    getMessageStatus c1Db "m1" ≠ resolveStatusSpec c1Db "m1" := by
  refine ⟨by decide, by decide, by decide, by decide, by decide⟩

/-! ### WebSocket hub (`handlers.go`, `WebSocketHub`) -/

/-- A live WebSocket connection handle.  `connId` identifies the underlying
connection object; `writeOk` is the environment fact of whether a write on it
succeeds (a broken pipe has `writeOk = false`). -/
structure WSConn where
  connId : Nat
  writeOk : Bool
deriving DecidableEq

/-- The hub state: the `connections` map (user id to connection, modelled as
an association list, written only under the hub mutex) plus the list of
connection ids on which `Close` has been called. -/
structure Hub where
  connections : List (String × WSConn)
  closed : List Nat
deriving DecidableEq

/-- Map lookup `h.connections[userID]`. -/
def lookupConn (h : Hub) (uid : String) : Option WSConn :=
  (h.connections.find? (fun e => e.1 == uid)).map (fun e => e.2)

/-- Go `Register` (`handlers.go`): close the existing connection if any, then
replace the map entry with the new connection. -/
def registerConn (h : Hub) (uid : String) (c : WSConn) : Hub :=
  { connections := h.connections.filter (fun e => !(e.1 == uid)) ++ [(uid, c)]
    closed :=
      match lookupConn h uid with
      | some ex => h.closed ++ [ex.connId]
      | none => h.closed }

/-- Go `Unregister` (`handlers.go`): if an entry exists, close it and delete it;
idempotent otherwise. -/
def unregisterConn (h : Hub) (uid : String) : Hub :=
  match lookupConn h uid with
  | some c =>
      { connections := h.connections.filter (fun e => !(e.1 == uid))
        closed := h.closed ++ [c.connId] }
  | none => h

/-- Outcome of one `SendToUser` call, as seen on the wire: the user was not
connected, or the serialized event was written to connection `connId`, or the
write on connection `connId` failed. -/
inductive SendOutcome
  | offline
  | delivered (connId : Nat)
  | writeFailed (connId : Nat)
deriving DecidableEq

/-- Go `SendToUser` (`handlers.go`): look up the connection; absent means do
nothing; present means attempt the write, and on failure unregister that
user.  (The `json.Marshal` failure branch cannot occur for the event values
the service builds and is not modelled.) -/
def sendToUser (h : Hub) (uid : String) : Hub × SendOutcome :=
  match lookupConn h uid with
  | none => (h, .offline)
  | some c =>
      if c.writeOk then (h, .delivered c.connId)
      else (unregisterConn h uid, .writeFailed c.connId)

/-- Go `BroadcastToUsers` (`handlers.go`): one independent `SendToUser` per
target (the Go code spawns a goroutine per target; each call touches only its
own user entry, so the per-target effects commute and we model one
linearization, processing the targets in list order).  Returns the final hub
and the per-target outcome log; outcomes are discarded by the caller exactly
as the spawned goroutines discard the `SendToUser` error. -/
def broadcastToUsers : Hub → List String → Hub × List (String × SendOutcome)
  | h, [] => (h, [])
  | h, u :: rest =>
      let r := sendToUser h u
      let tl := broadcastToUsers r.1 rest
      (tl.1, (u, r.2) :: tl.2)

/-- An acting HTTP request that has already computed its response `resp` and
then fans out over the hub: the handlers call `BroadcastToUsers` (or a bare
`SendToUser`) purely for effect, so the response is paired with the new hub
state and nothing of the broadcast outcome enters it. -/
def requestWithBroadcast {α : Type} (resp : α) (h : Hub) (uids : List String) :
    α × Hub :=
  (resp, (broadcastToUsers h uids).1)

/-! ### Hub lemmas -/

theorem find?_filter_of_imp {α : Type} (p q : α → Bool) (l : List α)
    (h : ∀ a, p a = true → q a = true) :
    (l.filter q).find? p = l.find? p := by
  induction l with
  | nil => rfl
  | cons a t ih =>
      by_cases hp : p a = true
      · simp [List.filter_cons, h a hp, List.find?_cons_of_pos _ hp]
      · by_cases hq : q a = true
        · simp [List.filter_cons, hq, List.find?_cons_of_neg _ hp, ih]
        · simp only [List.filter_cons, if_neg hq, ih,
            List.find?_cons_of_neg _ hp]

theorem find?_append_of_none {α : Type} (p : α → Bool) (l1 l2 : List α)
    (h : l1.find? p = none) : (l1 ++ l2).find? p = l2.find? p := by
  induction l1 with
  | nil => rfl
  | cons a t ih =>
      by_cases hp : p a = true
      · rw [List.find?_cons_of_pos _ hp] at h; cases h
      · rw [List.find?_cons_of_neg _ hp] at h
        simpa [List.find?_cons_of_neg _ hp] using ih h

theorem find?_userFilter_none (l : List (String × WSConn)) (u : String) :
    (l.filter (fun e => !(e.1 == u))).find? (fun e => e.1 == u) = none := by
  rw [List.find?_eq_none]
  intro x hx
  have := (List.mem_filter.mp hx).2
  simpa using this

theorem lookupConn_registerConn_self (h : Hub) (u : String) (c : WSConn) :
    lookupConn (registerConn h u c) u = some c := by
  unfold lookupConn registerConn
  rw [find?_append_of_none _ _ _ (find?_userFilter_none _ _)]
  simp

theorem lookupConn_unregisterConn_self (h : Hub) (u : String) :
    lookupConn (unregisterConn h u) u = none := by
  unfold unregisterConn
  cases hl : lookupConn h u with
  | none => simpa using hl
  | some c =>
      unfold lookupConn
      rw [find?_userFilter_none]
      rfl

theorem lookupConn_unregisterConn_other (h : Hub) (u v : String) (hne : v ≠ u) :
    lookupConn (unregisterConn h u) v = lookupConn h v := by
  unfold unregisterConn
  cases hl : lookupConn h u with
  | none => rfl
  | some c =>
      unfold lookupConn
      rw [find?_filter_of_imp]
      intro a ha
      have : a.1 = v := by simpa using ha
      simp [this, hne]

theorem sendToUser_lookup_other (h : Hub) (u v : String) (hne : v ≠ u) :
    lookupConn (sendToUser h u).1 v = lookupConn h v := by
  unfold sendToUser
  cases hl : lookupConn h u with
  | none => rfl
  | some c =>
      by_cases hw : c.writeOk = true
      · simp [hw]
      · simp only [Bool.not_eq_true] at hw
        simp [hw, lookupConn_unregisterConn_other h u v hne]

theorem broadcast_delivers (h : Hub) (uids : List String) (v : String)
    (cv : WSConn) (hv : v ∈ uids) (hl : lookupConn h v = some cv)
    (hw : cv.writeOk = true) :
    (v, SendOutcome.delivered cv.connId) ∈ (broadcastToUsers h uids).2 := by
  induction uids generalizing h with
  | nil => cases hv
  | cons u rest ih =>
      by_cases he : u = v
      · subst he
        simp [broadcastToUsers, sendToUser, hl, hw]
      · rcases List.mem_cons.mp hv with h1 | h2
        · exact absurd h1.symm he
        · have hpres := sendToUser_lookup_other h u v (fun hx => he hx.symm)
          have := ih (sendToUser h u).1 h2 (hpres.trans hl)
          simp [broadcastToUsers]
          exact Or.inr this

/-- C3: broadcast isolation (`SendToUser`, `BroadcastToUsers` in
`handlers.go`).  (1) A target with no registered connection is skipped with
the hub untouched and no failure.  (2) A write failure unregisters exactly
that user: afterwards the user has no connection, the failing connection id
is closed, and the registry entry of every other user is unchanged.  (3) In a
broadcast, every other target whose connection is live still receives the
event.  (4) The response of the acting request is the value it computed before the
fan-out, whatever the hub contains: no broadcast-path failure reaches it. -/
theorem c3_broadcast_isolation :
    (∀ (h : Hub) (u : String), lookupConn h u = none →
      sendToUser h u = (h, SendOutcome.offline)) ∧
    (∀ (h : Hub) (u : String) (c : WSConn), lookupConn h u = some c →
      c.writeOk = false →
      (sendToUser h u).2 = SendOutcome.writeFailed c.connId ∧
      lookupConn (sendToUser h u).1 u = none ∧
      c.connId ∈ (sendToUser h u).1.closed ∧
      (∀ v, v ≠ u → lookupConn (sendToUser h u).1 v = lookupConn h v)) ∧
    (∀ (h : Hub) (uids : List String) (v : String) (cv : WSConn),
      v ∈ uids → lookupConn h v = some cv → cv.writeOk = true →
      (v, SendOutcome.delivered cv.connId) ∈ (broadcastToUsers h uids).2) ∧
    (∀ (α : Type) (resp : α) (h : Hub) (uids : List String),
      (requestWithBroadcast resp h uids).1 = resp) := by
  refine ⟨?_, ?_, ?_, ?_⟩
  · intro h u hl
    simp [sendToUser, hl]
  · intro h u c hl hw
    have hsend : sendToUser h u = (unregisterConn h u, SendOutcome.writeFailed c.connId) := by
      simp [sendToUser, hl, hw]
    refine ⟨by rw [hsend], ?_, ?_, ?_⟩
    · rw [hsend]; exact lookupConn_unregisterConn_self h u
    · rw [hsend]
      unfold unregisterConn
      rw [hl]
      simp
    · intro v hv
      rw [hsend]
      exact lookupConn_unregisterConn_other h u v hv
  · exact fun h uids v cv hv hl hw => broadcast_delivers h uids v cv hv hl hw
  · intro α resp h uids
    rfl

/-- Concrete hub for the C3 witness: erin holds a dead connection, frank a
live one, dave none. -/
def c3Hub : Hub := ⟨[("erin", ⟨5, false⟩), ("frank", ⟨7, true⟩)], []⟩

/-- Witness for C3 at `c3Hub`. -/
theorem c3_broadcast_isolation_witness :
    sendToUser c3Hub "dave" = (c3Hub, SendOutcome.offline) ∧
    (sendToUser c3Hub "erin").2 = SendOutcome.writeFailed 5 ∧
    lookupConn (sendToUser c3Hub "erin").1 "frank" = lookupConn c3Hub "frank" ∧
    ("frank", SendOutcome.delivered 7) ∈
      (broadcastToUsers c3Hub ["erin", "frank"]).2 ∧
    (requestWithBroadcast (201 : Nat) c3Hub ["erin", "frank"]).1 = 201 := by
  refine ⟨c3_broadcast_isolation.1 c3Hub "dave" (by decide),
    (c3_broadcast_isolation.2.1 c3Hub "erin" ⟨5, false⟩ (by decide) (by decide)).1,
    (c3_broadcast_isolation.2.1 c3Hub "erin" ⟨5, false⟩ (by decide) (by decide)).2.2.2
      "frank" (by decide),
    c3_broadcast_isolation.2.2.1 c3Hub ["erin", "frank"] "frank" ⟨7, true⟩
      (by decide) (by decide) (by decide),
    c3_broadcast_isolation.2.2.2 Nat 201 c3Hub ["erin", "frank"]⟩

/-- C4: eviction on reconnect (`Register` in `handlers.go`).  Registering a
second connection for the same user closes the first (its id is recorded in
`closed`), the registry entry becomes the second connection, and a subsequent
notify targets exactly the second connection, never the first. -/
theorem c4_register_eviction (h : Hub) (u : String) (c1 c2 : WSConn)
    (hne : c1.connId ≠ c2.connId) :
    c1.connId ∈ (registerConn (registerConn h u c1) u c2).closed ∧
    lookupConn (registerConn (registerConn h u c1) u c2) u = some c2 ∧
    ((sendToUser (registerConn (registerConn h u c1) u c2) u).2 =
        SendOutcome.delivered c2.connId ∨
      (sendToUser (registerConn (registerConn h u c1) u c2) u).2 =
        SendOutcome.writeFailed c2.connId) ∧
    (sendToUser (registerConn (registerConn h u c1) u c2) u).2 ≠
      SendOutcome.delivered c1.connId ∧
    (sendToUser (registerConn (registerConn h u c1) u c2) u).2 ≠
      SendOutcome.writeFailed c1.connId := by
  have h1 : lookupConn (registerConn h u c1) u = some c1 :=
    lookupConn_registerConn_self h u c1
  have h2 : lookupConn (registerConn (registerConn h u c1) u c2) u = some c2 :=
    lookupConn_registerConn_self _ u c2
  have hgen : ∀ (g : Hub) (cx ex : WSConn), lookupConn g u = some ex →
      ex.connId ∈ (registerConn g u cx).closed := by
    intro g cx ex hl
    unfold registerConn
    rw [hl]
    simp
  have hclosed : c1.connId ∈ (registerConn (registerConn h u c1) u c2).closed :=
    hgen (registerConn h u c1) c2 c1 h1
  have hsend : (sendToUser (registerConn (registerConn h u c1) u c2) u).2 =
      SendOutcome.delivered c2.connId ∨
      (sendToUser (registerConn (registerConn h u c1) u c2) u).2 =
      SendOutcome.writeFailed c2.connId := by
    unfold sendToUser
    rw [h2]
    by_cases hw : c2.writeOk = true
    · simp [hw]
    · simp only [Bool.not_eq_true] at hw
      simp [hw]
  refine ⟨hclosed, h2, hsend, ?_, ?_⟩
  · rcases hsend with hs | hs <;> rw [hs] <;> intro hcon
    · exact hne (SendOutcome.delivered.inj hcon).symm
    · cases hcon
  · rcases hsend with hs | hs <;> rw [hs] <;> intro hcon
    · cases hcon
    · exact hne (SendOutcome.writeFailed.inj hcon).symm

/-- Witness for C4: two concrete connections with distinct ids. -/
theorem c4_register_eviction_witness :
    (5 : Nat) ≠ 7 ∧
    (5 : Nat) ∈ (registerConn (registerConn ⟨[], []⟩ "erin" ⟨5, true⟩)
      "erin" ⟨7, true⟩).closed ∧
    lookupConn (registerConn (registerConn ⟨[], []⟩ "erin" ⟨5, true⟩)
      "erin" ⟨7, true⟩) "erin" = some ⟨7, true⟩ :=
  ⟨by decide,
    (c4_register_eviction ⟨[], []⟩ "erin" ⟨5, true⟩ ⟨7, true⟩ (by decide)).1,
    (c4_register_eviction ⟨[], []⟩ "erin" ⟨5, true⟩ ⟨7, true⟩ (by decide)).2.1⟩

/-! ### Status monotonicity (C2) -/

/-- Numeric order of the three statuses, for stating that a resolved status
never regresses. -/
def statusRank : Option String → Nat
  | none => 0
  | some s => if s == StatusRead then 2 else if s == StatusReceived then 1 else 0

/-- The (message_id, user_id) PRIMARY KEY of `message_reads`
(`createMessageReadsTable` in `database.go`): no two rows share the key. -/
def ReadsKeysNodup (db : DB) : Prop :=
  db.messageReads.Pairwise (fun a b => a.messageId ≠ b.messageId ∨ a.userId ≠ b.userId)

/-- The key predicate of one marker. -/
def keyMatch (mid uid : String) (r : ReadRow) : Bool :=
  r.messageId == mid && r.userId == uid

theorem countP_split {α : Type} (p q : α → Bool) (l : List α) :
    l.countP p =
      l.countP (fun a => p a && q a) + l.countP (fun a => p a && !(q a)) := by
  induction l with
  | nil => rfl
  | cons a t ih =>
      simp only [List.countP_cons, ih]
      cases hp : p a <;> cases hq : q a <;> simp <;> omega

theorem countP_keyMatch_le_one (l : List ReadRow) (mid uid : String)
    (h : l.Pairwise (fun a b => a.messageId ≠ b.messageId ∨ a.userId ≠ b.userId)) :
    l.countP (keyMatch mid uid) ≤ 1 := by
  induction l with
  | nil => simp
  | cons a t ih =>
      rw [List.pairwise_cons] at h
      rw [List.countP_cons]
      by_cases ha : keyMatch mid uid a = true
      · have hz : t.countP (keyMatch mid uid) = 0 := by
          rw [List.countP_eq_zero]
          intro b hb hbk
          have h1 : a.messageId = mid ∧ a.userId = uid := by
            have := ha
            unfold keyMatch at this
            simpa using this
          have h2 : b.messageId = mid ∧ b.userId = uid := by
            unfold keyMatch at hbk
            simpa using hbk
          rcases h.1 b hb with hne | hne
          · exact hne (h1.1.trans h2.1.symm)
          · exact hne (h1.2.trans h2.2.symm)
        rw [hz]
        simp [ha]
      · have := ih h.2
        simp only [Bool.not_eq_true] at ha
        simp [ha]
        omega

theorem readCount_markRead_le (db : DB) (mid uid t mid0 : String)
    (h : ReadsKeysNodup db) :
    readCount db mid0 ≤ readCount (markMessageReadByUser db mid uid t) mid0 := by
  unfold readCount markMessageReadByUser
  simp only [List.countP_append]
  rw [List.countP_filter]
  by_cases hm : mid = mid0
  · subst hm
    have hsplit := countP_split (fun r : ReadRow => r.messageId == mid)
      (fun r => !(r.messageId == mid && r.userId == uid)) db.messageReads
    have hle : db.messageReads.countP
        (fun r => (r.messageId == mid) && !(!(r.messageId == mid && r.userId == uid))) ≤ 1 := by
      refine le_trans (List.countP_mono_left ?_) (countP_keyMatch_le_one _ mid uid h)
      intro r _ hr
      unfold keyMatch
      simp only [Bool.and_eq_true, Bool.not_not] at hr ⊢
      exact hr.2
    simp only [List.countP_cons, List.countP_nil, beq_self_eq_true, if_true]
    omega
  · have hz : db.messageReads.countP
        (fun r => (r.messageId == mid0) && !(!(r.messageId == mid && r.userId == uid))) = 0 := by
      rw [List.countP_eq_zero]
      intro r _ hrk
      simp only [Bool.and_eq_true, Bool.not_not, beq_iff_eq] at hrk
      exact hm (hrk.2.1.symm.trans hrk.1)
    have hsplit := countP_split (fun r : ReadRow => r.messageId == mid0)
      (fun r => !(r.messageId == mid && r.userId == uid)) db.messageReads
    simp only [List.countP_cons, List.countP_nil]
    have : ((⟨mid, uid, t⟩ : ReadRow).messageId == mid0) = false := by
      simpa using hm
    simp only [this, if_neg Bool.false_ne_true]
    omega

theorem markRead_preserves_nodup (db : DB) (mid uid t : String)
    (h : ReadsKeysNodup db) :
    ReadsKeysNodup (markMessageReadByUser db mid uid t) := by
  unfold ReadsKeysNodup markMessageReadByUser at *
  rw [List.pairwise_append]
  refine ⟨List.Pairwise.filter _ h, ?_, ?_⟩
  · simp
  intro a ha b hb
  have hq := (List.mem_filter.mp ha).2
  have hb1 : b = (⟨mid, uid, t⟩ : ReadRow) := by simpa using hb
  subst hb1
  by_cases hmid : a.messageId = mid
  · right
    intro hu
    rw [hmid, hu] at hq
    simp at hq
  · left
    exact hmid

theorem getStatus_rank_mono (db db' : DB) (mid : String)
    (hm : db'.messages = db.messages) (hp : db'.participants = db.participants)
    (hr : readCount db mid ≤ readCount db' mid) :
    statusRank (getMessageStatus db mid) ≤ statusRank (getMessageStatus db' mid) := by
  unfold getMessageStatus
  have hfm : findMessage db' mid = findMessage db mid := by
    unfold findMessage; rw [hm]
  rw [hfm]
  cases hfind : findMessage db mid with
  | none => simp [statusRank]
  | some m =>
      have ht : totalParticipants db' m.conversationId m.senderId =
          totalParticipants db m.conversationId m.senderId := by
        unfold totalParticipants; rw [hp]
      simp only [ht]
      by_cases h0 : (totalParticipants db m.conversationId m.senderId == 0) = true
      · simp [h0]
      · simp only [Bool.not_eq_true] at h0
        simp only [h0, Bool.false_eq_true, if_false]
        have h0' : 0 < totalParticipants db m.conversationId m.senderId := by
          have := beq_eq_false_iff_ne.mp h0
          omega
        by_cases hrc : (readCount db mid == 0) = true
        · simp only [hrc, if_true]
          have : statusRank (some StatusSent) = 0 := by decide
          rw [this]
          exact Nat.zero_le _
        · simp only [Bool.not_eq_true] at hrc
          have hrc' : 0 < readCount db mid := by
            have := beq_eq_false_iff_ne.mp hrc
            omega
          have hrc2 : (readCount db' mid == 0) = false := by
            rw [beq_eq_false_iff_ne]
            omega
          simp only [hrc, Bool.false_eq_true, if_false, hrc2]
          by_cases hle : totalParticipants db m.conversationId m.senderId ≤ readCount db mid
          · have hle2 : totalParticipants db m.conversationId m.senderId ≤ readCount db' mid := le_trans hle hr
            simp [hle, hle2]
          · simp only [if_neg hle]
            by_cases hle2 : totalParticipants db m.conversationId m.senderId ≤ readCount db' mid
            · simp only [if_pos hle2]
              decide
            · simp only [if_neg hle2]
              exact le_refl _

/-- A sequence of Read Marker insertions (message id, user id, time), the only
marker mutation in the code, applied through `MarkMessageReadByUser`. -/
def applyReadInserts (db : DB) (l : List (String × String × String)) : DB :=
  l.foldl (fun d i => markMessageReadByUser d i.1 i.2.1 i.2.2) db

theorem applyReadInserts_messages (db : DB) (l : List (String × String × String)) :
    (applyReadInserts db l).messages = db.messages := by
  induction l generalizing db with
  | nil => rfl
  | cons i t ih => exact (ih _).trans rfl

theorem applyReadInserts_participants (db : DB) (l : List (String × String × String)) :
    (applyReadInserts db l).participants = db.participants := by
  induction l generalizing db with
  | nil => rfl
  | cons i t ih => exact (ih _).trans rfl

theorem applyReadInserts_nodup (db : DB) (l : List (String × String × String))
    (h : ReadsKeysNodup db) : ReadsKeysNodup (applyReadInserts db l) := by
  induction l generalizing db with
  | nil => exact h
  | cons i t ih => exact ih _ (markRead_preserves_nodup _ _ _ _ h)

theorem rank_le_applyReadInserts (db : DB) (l : List (String × String × String))
    (mid : String) (h : ReadsKeysNodup db) :
    statusRank (getMessageStatus db mid) ≤
      statusRank (getMessageStatus (applyReadInserts db l) mid) := by
  induction l generalizing db with
  | nil => exact le_refl _
  | cons i t ih =>
      refine le_trans ?_ (ih _ (markRead_preserves_nodup _ _ _ _ h))
      exact getStatus_rank_mono db (markMessageReadByUser db i.1 i.2.1 i.2.2) mid
        rfl rfl (readCount_markRead_le db i.1 i.2.1 i.2.2 mid h)

/-- C2: the resolved status never regresses under Read Marker insertions.
Starting from any store whose `message_reads` rows satisfy the
primary-key constraint of the table, applying any further insertions `l2` after `l1` can
only keep or raise the rank sent < received < read of `GetMessageStatus`;
in particular read never reverts to received or sent, and received never
reverts to sent. -/
theorem c2_status_monotonic (db : DB) (h : ReadsKeysNodup db)
    (l1 l2 : List (String × String × String)) (mid : String) :
    statusRank (getMessageStatus (applyReadInserts db l1) mid) ≤
      statusRank (getMessageStatus (applyReadInserts db (l1 ++ l2)) mid) := by
  have happ : applyReadInserts db (l1 ++ l2) =
      applyReadInserts (applyReadInserts db l1) l2 := by
    unfold applyReadInserts
    exact List.foldl_append _ _ _ _
  rw [happ]
  exact rank_le_applyReadInserts _ l2 mid (applyReadInserts_nodup db l1 h)

/-- The alice/bob direct chat with one message by alice, used by witnesses. -/
def directDb : DB :=
  createMessage
    (addParticipant
      (addParticipant (createConversation dbEmpty "d1" "direct" "") "d1" "alice")
      "d1" "bob")
    { c1Msg with conversationId := "d1" }

/-- Witness for C2: in the alice/bob direct chat, one insertion by bob raises
the status of m1 from sent to read and a repeat insertion keeps it there. -/
theorem c2_status_monotonic_witness :
    ReadsKeysNodup directDb ∧
    statusRank (getMessageStatus (applyReadInserts directDb
      [("m1", "bob", "t1")]) "m1") ≤
    statusRank (getMessageStatus (applyReadInserts directDb
      ([("m1", "bob", "t1")] ++ [("m1", "bob", "t2")])) "m1") :=
  ⟨List.Pairwise.nil, c2_status_monotonic directDb List.Pairwise.nil _ _ "m1"⟩

/-! ### Reactions (C5) -/

/-- Go `CreateReaction` (`reaction.go`): first DELETE any existing reaction of
this user on this message, then INSERT the new row. -/
def createReaction (db : DB) (r : ReactionRow) : DB :=
  { db with reactions :=
      db.reactions.filter (fun x => !(x.messageId == r.messageId && x.userId == r.userId))
        ++ [r] }

/-- The (message, user) filter on reaction rows. -/
def reactionKey (m u : String) (x : ReactionRow) : Bool :=
  x.messageId == m && x.userId == u

/-- A sequence of react calls, each hitting `CreateReaction`. -/
def applyReactions (db : DB) (calls : List ReactionRow) : DB :=
  calls.foldl createReaction db

theorem createReaction_filter_key (db : DB) (r : ReactionRow) (m u : String)
    (hm : r.messageId = m) (hu : r.userId = u) :
    (createReaction db r).reactions.filter (reactionKey m u) = [r] := by
  unfold createReaction
  simp only
  rw [List.filter_append, List.filter_filter]
  have h1 : db.reactions.filter
      (fun x => reactionKey m u x && !(x.messageId == r.messageId && x.userId == r.userId)) = [] := by
    rw [List.filter_eq_nil_iff]
    intro x _
    unfold reactionKey
    subst hm hu
    intro hcon
    simp only [Bool.and_eq_true, Bool.not_eq_eq_eq_not, Bool.not_true] at hcon
    rw [hcon.1.1, hcon.1.2] at hcon
    simp at hcon
  rw [h1]
  have h2 : reactionKey m u r = true := by
    unfold reactionKey
    subst hm hu
    simp
  simp [h2]

/-- C5: at most one reaction per (message, user).  After any nonempty
sequence of react calls by user `u` on message `m` (each call is one
`CreateReaction`, which deletes the prior (m, u) row and inserts the new
one), exactly one reaction row for the pair remains, namely the row of the
most recent call, carrying the emoji of that call. -/
theorem c5_reaction_replaced (db : DB) (calls : List ReactionRow) (m u : String)
    (hne : calls ≠ [])
    (hall : ∀ c ∈ calls, c.messageId = m ∧ c.userId = u) :
    (applyReactions db calls).reactions.filter (reactionKey m u) =
      [calls.getLast hne] := by
  have hfold : applyReactions db calls =
      createReaction (applyReactions db calls.dropLast) (calls.getLast hne) := by
    conv_lhs => rw [show calls = calls.dropLast ++ [calls.getLast hne] from
      (List.dropLast_append_getLast hne).symm]
    unfold applyReactions
    rw [List.foldl_append]
    rfl
  rw [hfold]
  have hmem := List.getLast_mem hne
  exact createReaction_filter_key _ _ m u (hall _ hmem).1 (hall _ hmem).2

/-- Two concrete react calls by bob on m1 with different emoji. -/
def c5Calls : List ReactionRow :=
  [⟨"r1", "m1", "bob", "heart", "t1"⟩, ⟨"r2", "m1", "bob", "smile", "t2"⟩]

/-- Witness for C5: after bob reacts twice, only the second row remains. -/
theorem c5_reaction_replaced_witness :
    c5Calls ≠ [] ∧
    (applyReactions directDb c5Calls).reactions.filter (reactionKey "m1" "bob") =
      [⟨"r2", "m1", "bob", "smile", "t2"⟩] :=
  ⟨by decide, c5_reaction_replaced directDb c5Calls "m1" "bob" (by decide)
    (by decide)⟩

/-! ### Read markers: uniqueness, replacement and persistence (C7) -/

/-- C7 counterexample: re-reading is NOT timestamp-preserving.  bob opens the
alice/bob chat at time t1 (one Read Marker appears) and again at time t2;
because `MarkMessagesAsRead` still selects the message (its stored status is
never moved past sent/received) and `MarkMessageReadByUser` is an INSERT OR
REPLACE with the current time, the read_at field of the row becomes t2. -/
theorem c7_counterexample_timestamp_replaced :
    (markMessagesAsRead directDb "d1" "bob" "t1").messageReads =
      [⟨"m1", "bob", "t1"⟩] ∧
    (markMessagesAsRead (markMessagesAsRead directDb "d1" "bob" "t1")
        "d1" "bob" "t2").messageReads = [⟨"m1", "bob", "t2"⟩] ∧
    ("t1" : String) ≠ "t2" := by
  refine ⟨by decide, by decide, by decide⟩

/-- A read-path operation on the store: the three marker/status paths
reachable from reads (`MarkMessageReadByUser`, `MarkMessagesAsRead`,
`MarkMessagesAsReceived`). -/
inductive ReadPathOp
  | markRead (mid uid t : String)
  | markConvRead (cid uid t : String)
  | markReceived (uid : String)

/-- Interpret one read-path operation. -/
def applyReadPathOp (db : DB) : ReadPathOp → DB
  | .markRead mid uid t => markMessageReadByUser db mid uid t
  | .markConvRead cid uid t => markMessagesAsRead db cid uid t
  | .markReceived uid => markMessagesAsReceived db uid

/-- Whether a Read Marker row for (mid, uid) exists. -/
def hasMarker (db : DB) (mid uid : String) : Bool :=
  db.messageReads.any (keyMatch mid uid)

theorem markRead_filter_key (db : DB) (m u t : String) :
    (markMessageReadByUser db m u t).messageReads.filter (keyMatch m u) =
      [⟨m, u, t⟩] := by
  unfold markMessageReadByUser
  simp only
  rw [List.filter_append, List.filter_filter]
  have h1 : db.messageReads.filter
      (fun r => keyMatch m u r && !(r.messageId == m && r.userId == u)) = [] := by
    rw [List.filter_eq_nil_iff]
    intro r _
    unfold keyMatch
    cases hx : (r.messageId == m && r.userId == u) <;> simp [hx]
  rw [h1]
  have h2 : keyMatch m u (⟨m, u, t⟩ : ReadRow) = true := by
    unfold keyMatch
    simp
  simp [h2]

theorem hasMarker_markRead (db : DB) (m u mid uid t : String)
    (h : hasMarker db m u = true) :
    hasMarker (markMessageReadByUser db mid uid t) m u = true := by
  unfold hasMarker markMessageReadByUser at *
  simp only [List.any_append, Bool.or_eq_true]
  rcases List.any_eq_true.mp h with ⟨r, hr, hk⟩
  by_cases hsame : (r.messageId == mid && r.userId == uid) = true
  · right
    have hk2 : keyMatch m u (⟨mid, uid, t⟩ : ReadRow) = true := by
      unfold keyMatch at hk ⊢
      simp only [Bool.and_eq_true, beq_iff_eq] at hk hsame ⊢
      exact ⟨hsame.1.symm.trans hk.1, hsame.2.symm.trans hk.2⟩
    simp [List.any_cons, hk2]
  · left
    refine List.any_eq_true.mpr ⟨r, List.mem_filter.mpr ⟨hr, ?_⟩, hk⟩
    simp only [Bool.not_eq_true] at hsame
    simp [hsame]

theorem hasMarker_foldl_markRead (l : List MessageRow) (db : DB)
    (m u uid t : String) (h : hasMarker db m u = true) :
    hasMarker (l.foldl (fun d x => markMessageReadByUser d x.id uid t) db) m u = true := by
  induction l generalizing db with
  | nil => exact h
  | cons x xs ih => exact ih _ (hasMarker_markRead _ _ _ _ _ _ h)

theorem hasMarker_op (db : DB) (m u : String) (op : ReadPathOp)
    (h : hasMarker db m u = true) :
    hasMarker (applyReadPathOp db op) m u = true := by
  cases op with
  | markRead mid uid t => exact hasMarker_markRead _ _ _ _ _ _ h
  | markConvRead cid uid t => exact hasMarker_foldl_markRead _ _ _ _ _ _ h
  | markReceived uid => exact h

/-- C7 (amended): a Read Marker write leaves exactly one row for its
(message, user) pair, whose read_at is the time of the MOST RECENT write (so
re-reading keeps the single row but refreshes its timestamp, rather than
leaving it unchanged), and no read path — marker insert, open-conversation
marking, or list-view receive marking — ever deletes an existing marker. -/
theorem c7_marker_unique_and_persistent :
    (∀ (db : DB) (m u t : String),
      (markMessageReadByUser db m u t).messageReads.filter (keyMatch m u) =
        [⟨m, u, t⟩]) ∧
    (∀ (db : DB) (m u : String) (ops : List ReadPathOp),
      hasMarker db m u = true →
      hasMarker (ops.foldl applyReadPathOp db) m u = true) := by
  refine ⟨markRead_filter_key, ?_⟩
  intro db m u ops h
  induction ops generalizing db with
  | nil => exact h
  | cons op t ih => exact ih _ (hasMarker_op _ _ _ _ h)

/-- Witness for C7 (amended) at the direct-chat state. -/
theorem c7_marker_unique_and_persistent_witness :
    (markMessageReadByUser directDb "m1" "bob" "t1").messageReads.filter
      (keyMatch "m1" "bob") = [⟨"m1", "bob", "t1"⟩] ∧
    hasMarker (markMessageReadByUser directDb "m1" "bob" "t1") "m1" "bob" = true ∧
    hasMarker ([ReadPathOp.markReceived "bob",
        ReadPathOp.markConvRead "d1" "bob" "t2"].foldl applyReadPathOp
      (markMessageReadByUser directDb "m1" "bob" "t1")) "m1" "bob" = true :=
  ⟨c7_marker_unique_and_persistent.1 directDb "m1" "bob" "t1",
    by decide,
    c7_marker_unique_and_persistent.2 (markMessageReadByUser directDb "m1" "bob" "t1")
      "m1" "bob" _ (by decide)⟩

/-! ### Receive-on-list frame property (C10) -/

/-- C10: `MarkMessagesAsReceived` touches nothing but the matching messages.
Every non-message table is unchanged; the message list keeps its length; a
message matching the WHERE clause (stored status sent, foreign sender, in one
of the conversations of the user) becomes the same row with status received; any
message failing the clause — in particular messages sent by the user, messages
already received or read, and messages of conversations the user is not in —
is returned entirely unchanged. -/
theorem c10_receive_frame (db : DB) (uid : String) :
    (markMessagesAsReceived db uid).conversations = db.conversations ∧
    (markMessagesAsReceived db uid).participants = db.participants ∧
    (markMessagesAsReceived db uid).messageReads = db.messageReads ∧
    (markMessagesAsReceived db uid).reactions = db.reactions ∧
    (markMessagesAsReceived db uid).messages.length = db.messages.length ∧
    ∀ i (hi : i < db.messages.length),
      (receiveCond db uid db.messages[i] = true →
        (markMessagesAsReceived db uid).messages[i]? =
          some { db.messages[i] with status := StatusReceived }) ∧
      (receiveCond db uid db.messages[i] = false →
        (markMessagesAsReceived db uid).messages[i]? = some db.messages[i]) ∧
      (db.messages[i].status = StatusRead →
        (markMessagesAsReceived db uid).messages[i]? = some db.messages[i]) ∧
      (db.messages[i].senderId = uid →
        (markMessagesAsReceived db uid).messages[i]? = some db.messages[i]) ∧
      (inUserConversations db uid db.messages[i].conversationId = false →
        (markMessagesAsReceived db uid).messages[i]? = some db.messages[i]) := by
  refine ⟨rfl, rfl, rfl, rfl, by simp [markMessagesAsReceived], ?_⟩
  intro i hi
  have hmap : (markMessagesAsReceived db uid).messages[i]? =
      (db.messages[i]?).map (fun m =>
        if receiveCond db uid m then { m with status := StatusReceived } else m) := by
    unfold markMessagesAsReceived
    simp [List.getElem?_map]
  have hsome : db.messages[i]? = some db.messages[i] := List.getElem?_eq_getElem hi
  refine ⟨?_, ?_, ?_, ?_, ?_⟩
  · intro hc
    rw [hmap, hsome]
    simp [hc]
  · intro hc
    rw [hmap, hsome]
    simp [hc]
  · intro hc
    rw [hmap, hsome]
    have hcond : receiveCond db uid db.messages[i] = false := by
      unfold receiveCond
      rw [hc]
      simp [StatusRead, StatusSent]
    simp [hcond]
  · intro hc
    rw [hmap, hsome]
    have hcond : receiveCond db uid db.messages[i] = false := by
      unfold receiveCond
      rw [hc]
      simp
    simp [hcond]
  · intro hc
    rw [hmap, hsome]
    have hcond : receiveCond db uid db.messages[i] = false := by
      unfold receiveCond
      rw [hc]
      simp
    simp [hcond]

/-- Witness for C10: in the direct chat, the list fetch by bob marks the
message of alice received, and the read message in the carol/dan chat is
untouched. -/
theorem c10_receive_frame_witness :
    receiveCond directDb "bob" directDb.messages[0] = true ∧
    (markMessagesAsReceived directDb "bob").messages[0]? =
      some { directDb.messages[0] with status := StatusReceived } ∧
    receiveCond directDb "alice" directDb.messages[0] = false ∧
    (markMessagesAsReceived directDb "alice").messages[0]? =
      some directDb.messages[0] :=
  ⟨by decide,
    ((c10_receive_frame directDb "bob").2.2.2.2.2 0 (by decide)).1 (by decide),
    by decide,
    ((c10_receive_frame directDb "alice").2.2.2.2.2 0 (by decide)).2.1 (by decide)⟩

/-! ### sendMessage validation (C8) and not-found conflation (C9) -/

/-- The decoded body of POST .../messages (`SendMessageRequest`). -/
structure SendMessageRequest where
  contentType : String
  text : Option String
  photoUrl : Option String
  fileUrl : Option String
  fileName : Option String
  replyToMessageId : Option String
deriving DecidableEq

/-- The outcome of a modelled handler: the HTTP error responses it can write,
or the created message.  Matches `sendNotFound` (404), `sendBadRequest` (400)
and the 201 + body of `sendMessage`. -/
inductive ApiResult
  | notFound (msg : String)
  | badRequest (msg : String)
  | createdMsg (m : MessageRow)
deriving DecidableEq

/-- The Go test `o == nil || *o == ""` on an optional string field. -/
def optEmpty (o : Option String) : Bool :=
  match o with
  | none => true
  | some s => s == ""

/-- Membership in the `validTypes` map of `sendMessage`. -/
def validContentType (ct : String) : Bool :=
  ct == "text" || ct == "photo" || ct == "audio" || ct == "document" || ct == "file"

/-- Go `sendMessage` (`handlers.go`, after auth and JSON decoding): participant
gate, content-type check, the three kind-specific field checks, then
`CreateMessage` with status sent and isForwarded false.  `msgId` and
`createdAt` stand for the generated UUID and timestamp. -/
def sendMessage (db : DB) (cid uid : String) (req : SendMessageRequest)
    (msgId createdAt : String) : ApiResult × DB :=
  if !(isParticipant db cid uid) then
    (.notFound "Conversation not found or you are not a participant", db)
  else if !(validContentType req.contentType) then
    (.badRequest "contentType must be text, photo, audio, document, or file", db)
  else if req.contentType == "text" && optEmpty req.text && optEmpty req.photoUrl then
    (.badRequest "text or photoUrl is required for text messages", db)
  else if req.contentType == "photo" && optEmpty req.photoUrl then
    (.badRequest "photoUrl is required for photo messages", db)
  else if (req.contentType == "audio" || req.contentType == "document" ||
      req.contentType == "file") && optEmpty req.fileUrl then
    (.badRequest "fileUrl is required for audio/document/file messages", db)
  else
    let msg : MessageRow :=
      { id := msgId, conversationId := cid, senderId := uid,
        createdAt := createdAt, contentType := req.contentType,
        text := req.text, photoUrl := req.photoUrl, fileUrl := req.fileUrl,
        fileName := req.fileName, repliedTo := req.replyToMessageId,
        status := StatusSent, isForwarded := false }
    (.createdMsg msg, createMessage db msg)

/-- A file request carrying a fileUrl but NO fileName. -/
def c8Req : SendMessageRequest :=
  { contentType := "file", text := none, photoUrl := none,
    fileUrl := some "http://x/f.bin", fileName := none,
    replyToMessageId := none }

/-- C8 counterexample: the code does NOT require the URL+filename pair for
file-like kinds — only `fileUrl` is checked.  A file request by a participant
with a fileUrl and no fileName passes validation and a message IS created. -/
theorem c8_counterexample_fileName_not_required :
    isParticipant directDb "d1" "bob" = true ∧
    c8Req.fileName = none ∧
    (sendMessage directDb "d1" "bob" c8Req "m2" "t3").1 =
      ApiResult.createdMsg
        { id := "m2", conversationId := "d1", senderId := "bob",
          createdAt := "t3", contentType := "file", text := none,
          photoUrl := none, fileUrl := some "http://x/f.bin", fileName := none,
          repliedTo := none, status := StatusSent, isForwarded := false } ∧
    (sendMessage directDb "d1" "bob" c8Req "m2" "t3").2.messages.length =
      directDb.messages.length + 1 := by
  refine ⟨by decide, rfl, by decide, by decide⟩

/-- C8 (amended): kind-specific required fields are validated before anything
is persisted, where the file-like kinds require only a non-empty fileUrl
(fileName is not validated).  For a participant caller: a text request with
both text and photoUrl missing or empty, a photo request with photoUrl
missing or empty, and an audio/document/file request with fileUrl missing or
empty are each rejected as a validation error with the store unchanged; and
every run either leaves the store unchanged (rejection) or appends exactly
the one created message, which carries status sent. -/
theorem c8_validation_rules (db : DB) (cid uid : String)
    (req : SendMessageRequest) (msgId createdAt : String)
    (hp : isParticipant db cid uid = true) :
    (req.contentType = "text" → optEmpty req.text = true →
      optEmpty req.photoUrl = true →
      sendMessage db cid uid req msgId createdAt =
        (.badRequest "text or photoUrl is required for text messages", db)) ∧
    (req.contentType = "photo" → optEmpty req.photoUrl = true →
      sendMessage db cid uid req msgId createdAt =
        (.badRequest "photoUrl is required for photo messages", db)) ∧
    (req.contentType = "audio" ∨ req.contentType = "document" ∨
        req.contentType = "file" → optEmpty req.fileUrl = true →
      sendMessage db cid uid req msgId createdAt =
        (.badRequest "fileUrl is required for audio/document/file messages", db)) ∧
    ((sendMessage db cid uid req msgId createdAt).2 = db ∨
      ∃ m : MessageRow, m.status = StatusSent ∧
        (sendMessage db cid uid req msgId createdAt).1 = .createdMsg m ∧
        (sendMessage db cid uid req msgId createdAt).2 = createMessage db m) := by
  refine ⟨?_, ?_, ?_, ?_⟩
  · intro hct ht hph
    unfold sendMessage
    rw [hp]
    simp [hct, validContentType, ht, hph]
  · intro hct hph
    unfold sendMessage
    rw [hp]
    simp [hct, validContentType, hph]
  · intro hct hf
    unfold sendMessage
    rw [hp]
    rcases hct with hct | hct | hct <;> simp [hct, validContentType, hf]
  · unfold sendMessage
    split_ifs
    · left; rfl
    · left; rfl
    · left; rfl
    · left; rfl
    · left; rfl
    · right; exact ⟨_, rfl, rfl, rfl⟩

/-- Witness for C8 (amended): concrete rejected text request and rejected
file request by bob in the direct chat, each leaving the store unchanged. -/
theorem c8_validation_rules_witness :
    isParticipant directDb "d1" "bob" = true ∧
    sendMessage directDb "d1" "bob"
      ⟨"text", none, none, none, none, none⟩ "m2" "t3" =
      (.badRequest "text or photoUrl is required for text messages", directDb) ∧
    sendMessage directDb "d1" "bob"
      ⟨"file", none, none, some "", none, none⟩ "m2" "t3" =
      (.badRequest "fileUrl is required for audio/document/file messages",
        directDb) :=
  ⟨by decide,
    (c8_validation_rules directDb "d1" "bob" ⟨"text", none, none, none, none, none⟩
      "m2" "t3" (by decide)).1 rfl (by decide) (by decide),
    (c8_validation_rules directDb "d1" "bob" ⟨"file", none, none, some "", none, none⟩
      "m2" "t3" (by decide)).2.2.1 (Or.inr (Or.inr rfl)) (by decide)⟩

/-- The participant gate shared verbatim by `getConversation` and
`sendMessage` (`handlers.go`): a non-participant gets 404 with this message,
whether or not the conversation exists. -/
def getConversationGate (db : DB) (cid uid : String) : Option ApiResult :=
  if !(isParticipant db cid uid) then
    some (.notFound "Conversation not found or you are not a participant")
  else none

/-- C9: not-found conflation.  For an authenticated caller who is not a
participant, the run against a REAL conversation id and the run against a
NONEXISTENT id produce equal responses — the same 404 value — both at the
`getConversation` gate and through the whole `sendMessage` handler, so a
prober cannot distinguish existence. -/
theorem c9_not_found_conflation (db : DB) (uid cidReal cidFake : String)
    (req : SendMessageRequest) (msgId createdAt : String)
    (_hex : db.conversations.any (fun c => c.id == cidReal) = true)
    (hnp : isParticipant db cidReal uid = false)
    (hfake : db.participants.any (fun p => p.1 == cidFake) = false) :
    getConversationGate db cidReal uid = getConversationGate db cidFake uid ∧
    getConversationGate db cidReal uid =
      some (.notFound "Conversation not found or you are not a participant") ∧
    sendMessage db cidReal uid req msgId createdAt =
      sendMessage db cidFake uid req msgId createdAt ∧
    (sendMessage db cidReal uid req msgId createdAt).1 =
      .notFound "Conversation not found or you are not a participant" := by
  have hnp2 : isParticipant db cidFake uid = false := by
    unfold isParticipant
    simp only [decide_eq_false_iff_not, not_lt, Nat.le_zero, List.countP_eq_zero]
    intro p hp
    have := List.any_eq_false.mp hfake p hp
    simp only [Bool.and_eq_true, not_and]
    intro hc
    exact absurd hc this
  refine ⟨?_, ?_, ?_, ?_⟩
  · unfold getConversationGate
    rw [hnp, hnp2]
  · unfold getConversationGate
    rw [hnp]
    rfl
  · unfold sendMessage
    rw [hnp, hnp2]
    simp
  · unfold sendMessage
    rw [hnp]
    rfl

/-- A store where carol has a conversation c9 that bob is not in, used for
the C9 witness; the id zz was never created. -/
def c9Db : DB :=
  createMessage
    (addParticipant (createConversation dbEmpty "c9" "direct" "") "c9" "carol")
    { c1Msg with conversationId := "c9", senderId := "carol" }

/-- Witness for C9: bob probing the real id c9 and the missing id zz gets
identical 404 responses. -/
theorem c9_not_found_conflation_witness :
    c9Db.conversations.any (fun c => c.id == "c9") = true ∧
    isParticipant c9Db "c9" "bob" = false ∧
    getConversationGate c9Db "c9" "bob" = getConversationGate c9Db "zz" "bob" ∧
    sendMessage c9Db "c9" "bob" c8Req "m2" "t3" =
      sendMessage c9Db "zz" "bob" c8Req "m2" "t3" :=
  ⟨by decide, by decide,
    (c9_not_found_conflation c9Db "bob" "c9" "zz" c8Req "m2" "t3"
      (by decide) (by decide) (by decide)).1,
    (c9_not_found_conflation c9Db "bob" "c9" "zz" c8Req "m2" "t3"
      (by decide) (by decide) (by decide)).2.2.1⟩

/-! ### Direct-conversation uniqueness (C6) -/

/-- EXISTS a participant row (cid, uid). -/
def hasParticipant (db : DB) (cid uid : String) : Bool :=
  db.participants.any (fun p => p.1 == cid && p.2 == uid)

/-- The conversations JOIN of `GetDirectConversation`: cid is a conversation
of type direct. -/
def isDirectConv (db : DB) (cid : String) : Bool :=
  db.conversations.any (fun c => c.id == cid && c.type == "direct")

/-- Go `GetDirectConversation` (`conversation.go`): the self-join query — the
first participant row of u1 whose conversation is direct and also contains
u2 (cp1 and cp2 may be the same row, so u1 = u2 matches any direct
conversation containing u1). -/
def getDirectConversation (db : DB) (u1 u2 : String) : Option String :=
  (db.participants.find? (fun p =>
    p.2 == u1 && isDirectConv db p.1 && hasParticipant db p.1 u2)).map
    (fun p => p.1)

/-- The creation branch of `startConversation` (`handlers.go`): create a
direct conversation with the fresh id `nid`, add the caller, and add the
target unless this is the self-conversation case. -/
def createDirectBranch (db : DB) (a b nid : String) : DB :=
  let db1 := createConversation db nid "direct"
    (if a == b then "Message Yourself" else "")
  let db2 := addParticipant db1 nid a
  if a == b then db2 else addParticipant db2 nid b

/-- Go `startConversation` (`handlers.go`, after auth and target-user checks):
caller `a`, request body user id `b` (self-conversation when b = a), `nid`
the generated UUID.  If `GetDirectConversation(a, b)` finds a conversation
it is returned unchanged; otherwise the new conversation is created. -/
def startConversation (db : DB) (a b nid : String) : DB × String :=
  match getDirectConversation db a b with
  | some cid => (db, cid)
  | none => (createDirectBranch db a b nid, nid)

/-- A sequence of start-conversation requests (caller, target, fresh id). -/
def runStartConversations (db : DB) (reqs : List (String × String × String)) : DB :=
  reqs.foldl (fun d r => (startConversation d r.1 r.2.1 r.2.2).1) db

/-- Predicate: `cid` is THE direct conversation of the unordered pair \x7bx, y\x7d: it is
direct, contains x and y, and contains nobody else.  The degenerate self
pair is `ConvFor db cid x x`. -/
def ConvFor (db : DB) (cid x y : String) : Prop :=
  isDirectConv db cid = true ∧ hasParticipant db cid x = true ∧
    hasParticipant db cid y = true ∧
    ∀ u, hasParticipant db cid u = true → u = x ∨ u = y

/-- The claimed invariant: at most one direct conversation per unordered
pair of participants. -/
def AtMostOnePerPair (db : DB) : Prop :=
  ∀ x y c1 c2, ConvFor db c1 x y → ConvFor db c2 x y → c1 = c2

/-- Freshness: `nid` appears nowhere in the store (the generated UUID is fresh). -/
def FreshConvId (db : DB) (nid : String) : Prop :=
  (∀ c ∈ db.conversations, c.id ≠ nid) ∧ ∀ p ∈ db.participants, p.1 ≠ nid

theorem addParticipant_conversations (db : DB) (c u : String) :
    (addParticipant db c u).conversations = db.conversations := by
  unfold addParticipant
  split <;> rfl

theorem createDirectBranch_conversations (db : DB) (a b nid : String) :
    (createDirectBranch db a b nid).conversations =
      db.conversations ++
        [⟨nid, "direct", if a == b then "Message Yourself" else ""⟩] := by
  unfold createDirectBranch
  split
  · rw [addParticipant_conversations]
    rfl
  · rw [addParticipant_conversations, addParticipant_conversations]
    rfl

theorem createDirectBranch_participants (db : DB) (a b nid : String)
    (hfresh : FreshConvId db nid) :
    (createDirectBranch db a b nid).participants =
      db.participants ++
        (if a == b then [(nid, a)] else [(nid, a), (nid, b)]) := by
  have hany : ∀ v : String,
      db.participants.any (fun p => p.1 == nid && p.2 == v) = false := by
    intro v
    rw [List.any_eq_false]
    intro p hp
    have := hfresh.2 p hp
    simp [this]
  unfold createDirectBranch createConversation addParticipant
  by_cases hab : (a == b) = true
  · simp only [hab, if_true]
    simp [hany a]
  · simp only [Bool.not_eq_true] at hab
    simp only [hab, Bool.false_eq_true, if_false]
    simp only [hany a, Bool.false_eq_true, if_false]
    simp only [List.any_append, hany b]
    have h2 : [(nid, a)].any (fun p => p.1 == nid && p.2 == b) = false := by
      simp [hab]
    rw [h2]
    simp

theorem isDirectConv_branch_ne (db : DB) (a b nid c : String) (hne : c ≠ nid) :
    isDirectConv (createDirectBranch db a b nid) c = isDirectConv db c := by
  unfold isDirectConv
  rw [createDirectBranch_conversations, List.any_append]
  have : ([⟨nid, "direct", if a == b then "Message Yourself" else ""⟩] :
      List ConvRow).any (fun cv => cv.id == c && cv.type == "direct") = false := by
    simp
    intro hcon
    exact hne hcon.symm
  rw [this]
  simp

theorem isDirectConv_branch_self (db : DB) (a b nid : String) :
    isDirectConv (createDirectBranch db a b nid) nid = true := by
  unfold isDirectConv
  rw [createDirectBranch_conversations, List.any_append]
  simp

theorem hasParticipant_branch_ne (db : DB) (a b nid c u : String)
    (hfresh : FreshConvId db nid) (hne : c ≠ nid) :
    hasParticipant (createDirectBranch db a b nid) c u = hasParticipant db c u := by
  unfold hasParticipant
  rw [createDirectBranch_participants db a b nid hfresh, List.any_append]
  have hnc : (nid == c) = false := beq_eq_false_iff_ne.mpr (Ne.symm hne)
  have : ((if a == b then [(nid, a)] else [(nid, a), (nid, b)]) :
      List (String × String)).any (fun p => p.1 == c && p.2 == u) = false := by
    split <;> simp [hnc]
  rw [this]
  simp

theorem hasParticipant_branch_self (db : DB) (a b nid u : String)
    (hfresh : FreshConvId db nid) :
    hasParticipant (createDirectBranch db a b nid) nid u =
      ((a == u) || (!(a == b) && (b == u))) := by
  unfold hasParticipant
  rw [createDirectBranch_participants db a b nid hfresh, List.any_append]
  have h1 : db.participants.any (fun p => p.1 == nid && p.2 == u) = false := by
    rw [List.any_eq_false]
    intro p hp
    have := hfresh.2 p hp
    simp [this]
  rw [h1]
  by_cases hab : (a == b) = true
  · simp only [hab, if_true]
    simp
  · simp only [Bool.not_eq_true] at hab
    simp only [hab, Bool.false_eq_true, if_false]
    simp

theorem convFor_branch_ne (db : DB) (a b nid c x y : String)
    (hfresh : FreshConvId db nid) (hne : c ≠ nid) :
    ConvFor (createDirectBranch db a b nid) c x y ↔ ConvFor db c x y := by
  unfold ConvFor
  rw [isDirectConv_branch_ne db a b nid c hne,
    hasParticipant_branch_ne db a b nid c x hfresh hne,
    hasParticipant_branch_ne db a b nid c y hfresh hne]
  constructor
  · rintro ⟨h1, h2, h3, h4⟩
    exact ⟨h1, h2, h3, fun u hu =>
      h4 u (by rw [hasParticipant_branch_ne db a b nid c u hfresh hne]; exact hu)⟩
  · rintro ⟨h1, h2, h3, h4⟩
    exact ⟨h1, h2, h3, fun u hu =>
      h4 u (by rw [hasParticipant_branch_ne db a b nid c u hfresh hne] at hu; exact hu)⟩

theorem getDirect_none_no_conv (db : DB) (a b c : String)
    (hgd : getDirectConversation db a b = none)
    (hdc : isDirectConv db c = true) (hca : hasParticipant db c a = true)
    (hcb : hasParticipant db c b = true) : False := by
  unfold getDirectConversation at hgd
  rw [Option.map_eq_none'] at hgd
  rcases List.any_eq_true.mp hca with ⟨p, hp, hpk⟩
  simp only [Bool.and_eq_true, beq_iff_eq] at hpk
  have := List.find?_eq_none.mp hgd p hp
  apply this
  simp only [Bool.and_eq_true, beq_iff_eq]
  exact ⟨⟨hpk.2, by rw [hpk.1]; exact hdc⟩, by rw [hpk.1]; exact hcb⟩

theorem startConversation_preserves (db : DB) (a b nid : String)
    (hinv : AtMostOnePerPair db) (hfresh : FreshConvId db nid) :
    AtMostOnePerPair (startConversation db a b nid).1 := by
  cases hgd : getDirectConversation db a b with
  | some cid =>
      simp only [startConversation, hgd]
      exact hinv
  | none =>
      simp only [startConversation, hgd]
      have hmema : hasParticipant (createDirectBranch db a b nid) nid a = true := by
        rw [hasParticipant_branch_self db a b nid a hfresh]
        simp
      have hmemb : hasParticipant (createDirectBranch db a b nid) nid b = true := by
        rw [hasParticipant_branch_self db a b nid b hfresh]
        cases hab : (a == b) <;> simp [hab]
      have hkey : ∀ c x y, c ≠ nid →
          ConvFor (createDirectBranch db a b nid) nid x y →
          ConvFor (createDirectBranch db a b nid) c x y → False := by
        intro c x y hcne hn hc
        have hcdb : ConvFor db c x y :=
          (convFor_branch_ne db a b nid c x y hfresh hcne).mp hc
        have hax : a = x ∨ a = y := hn.2.2.2 a hmema
        have hbx : b = x ∨ b = y := hn.2.2.2 b hmemb
        have hca : hasParticipant db c a = true := by
          rcases hax with h | h
          · rw [h]; exact hcdb.2.1
          · rw [h]; exact hcdb.2.2.1
        have hcb : hasParticipant db c b = true := by
          rcases hbx with h | h
          · rw [h]; exact hcdb.2.1
          · rw [h]; exact hcdb.2.2.1
        exact getDirect_none_no_conv db a b c hgd hcdb.1 hca hcb
      intro x y c1 c2 h1 h2
      by_cases e1 : c1 = nid <;> by_cases e2 : c2 = nid
      · rw [e1, e2]
      · exact ((hkey c2 x y e2 (by rw [e1] at h1; exact h1) h2)).elim
      · exact ((hkey c1 x y e1 (by rw [e2] at h2; exact h2) h1)).elim
      · exact hinv x y c1 c2 ((convFor_branch_ne db a b nid c1 x y hfresh e1).mp h1)
          ((convFor_branch_ne db a b nid c2 x y hfresh e2).mp h2)

theorem startConversation_conv_ids (db : DB) (a b nid : String) :
    ∀ c ∈ (startConversation db a b nid).1.conversations,
      c ∈ db.conversations ∨ c.id = nid := by
  cases hgd : getDirectConversation db a b with
  | some cid =>
      simp only [startConversation, hgd]
      exact fun c hc => Or.inl hc
  | none =>
      simp only [startConversation, hgd]
      intro c hc
      rw [createDirectBranch_conversations] at hc
      rcases List.mem_append.mp hc with h | h
      · exact Or.inl h
      · right
        rw [List.mem_singleton.mp h]

theorem startConversation_part_ids (db : DB) (a b nid : String)
    (hfresh : FreshConvId db nid) :
    ∀ p ∈ (startConversation db a b nid).1.participants,
      p ∈ db.participants ∨ p.1 = nid := by
  cases hgd : getDirectConversation db a b with
  | some cid =>
      simp only [startConversation, hgd]
      exact fun p hp => Or.inl hp
  | none =>
      simp only [startConversation, hgd]
      intro p hp
      rw [createDirectBranch_participants db a b nid hfresh] at hp
      rcases List.mem_append.mp hp with h | h
      · exact Or.inl h
      · right
        revert h
        split
        · intro h
          rw [List.mem_singleton.mp h]
        · intro h
          rcases List.mem_cons.mp h with h | h
          · rw [h]
          · rw [List.mem_singleton.mp h]

theorem fresh_after_start (db : DB) (a b nid m : String)
    (hfn : FreshConvId db nid) (hm : FreshConvId db m) (hne : m ≠ nid) :
    FreshConvId (startConversation db a b nid).1 m := by
  constructor
  · intro c hc
    rcases startConversation_conv_ids db a b nid c hc with h | h
    · exact hm.1 c h
    · rw [h]; exact Ne.symm hne
  · intro p hp
    rcases startConversation_part_ids db a b nid hfn p hp with h | h
    · exact hm.2 p h
    · rw [h]; exact Ne.symm hne

theorem runStart_inv (reqs : List (String × String × String)) (db : DB)
    (hinv : AtMostOnePerPair db)
    (hfresh : ∀ r ∈ reqs, FreshConvId db r.2.2)
    (hnodup : reqs.Pairwise (fun r1 r2 => r1.2.2 ≠ r2.2.2)) :
    AtMostOnePerPair (runStartConversations db reqs) := by
  induction reqs generalizing db with
  | nil => exact hinv
  | cons r t ih =>
      rw [List.pairwise_cons] at hnodup
      have hf := hfresh r (List.mem_cons_self r t)
      refine ih ((startConversation db r.1 r.2.1 r.2.2).1)
        (startConversation_preserves db r.1 r.2.1 r.2.2 hinv hf) ?_ hnodup.2
      intro r2 hr2
      exact fresh_after_start db r.1 r.2.1 r.2.2 r2.2.2 hf
        (hfresh r2 (List.mem_cons_of_mem r hr2)) (Ne.symm (hnodup.1 r2 hr2))

/-- C6: uniqueness of direct conversations.  From any store satisfying the
at-most-one-per-pair invariant, any sequence of start-conversation requests
(with fresh, pairwise-distinct generated conversation ids) preserves the
invariant: at most one direct conversation per unordered participant pair,
the degenerate self pair included.  Moreover a request for a pair whose
direct conversation is found returns that conversation and leaves the store
unchanged, and a self-pair conversation (sole participant x) is never the
same conversation as a two-party one. -/
theorem c6_direct_pair_unique (db : DB) (reqs : List (String × String × String))
    (hinv : AtMostOnePerPair db)
    (hfresh : ∀ r ∈ reqs, FreshConvId db r.2.2)
    (hnodup : reqs.Pairwise (fun r1 r2 => r1.2.2 ≠ r2.2.2)) :
    AtMostOnePerPair (runStartConversations db reqs) ∧
    (∀ a b nid cid, getDirectConversation db a b = some cid →
      startConversation db a b nid = (db, cid)) ∧
    (∀ c x y, x ≠ y → ConvFor db c x x → ¬ConvFor db c x y) := by
  refine ⟨runStart_inv reqs db hinv hfresh hnodup, ?_, ?_⟩
  · intro a b nid cid h
    simp [startConversation, h]
  · intro c x y hne hxx hxy
    rcases hxx.2.2.2 y hxy.2.2.1 with h | h <;> exact hne h.symm

/-- Requests for the C6 witness: alice starts a chat with bob, then a
self-chat. -/
def c6Reqs : List (String × String × String) :=
  [("alice", "bob", "c1"), ("alice", "alice", "c2")]

/-- Witness for C6 from the empty store. -/
theorem c6_direct_pair_unique_witness :
    AtMostOnePerPair dbEmpty ∧
    (∀ r ∈ c6Reqs, FreshConvId dbEmpty r.2.2) ∧
    c6Reqs.Pairwise (fun r1 r2 => r1.2.2 ≠ r2.2.2) ∧
    AtMostOnePerPair (runStartConversations dbEmpty c6Reqs) := by
  have hinv0 : AtMostOnePerPair dbEmpty := by
    intro x y c1 c2 h1 _
    exact absurd h1.2.1 (by simp [hasParticipant, dbEmpty])
  have hf0 : ∀ r ∈ c6Reqs, FreshConvId dbEmpty r.2.2 := by
    intro r _
    exact ⟨fun c hc => absurd hc (List.not_mem_nil c),
      fun p hp => absurd hp (List.not_mem_nil p)⟩
  have hnd0 : c6Reqs.Pairwise (fun r1 r2 => r1.2.2 ≠ r2.2.2) := by
    refine List.pairwise_cons.mpr ⟨?_, List.pairwise_singleton _ _⟩
    intro r2 hr2
    rw [List.mem_singleton.mp hr2]
    decide
  exact ⟨hinv0, hf0, hnd0,
    (c6_direct_pair_unique dbEmpty c6Reqs hinv0 hf0 hnd0).1⟩

end Wasa
